import Mathlib

/-!
Shallow embedding of the hotel-reservation core (src/app/page.tsx):
inventory model, travel-time calculator, room allocator (same-floor
search, exhaustive cross-floor search, greedy fallback) and the
occupancy mutator, together with theorems settling the spec claims.
-/

set_option maxHeartbeats 1000000

namespace Hotel

/-- Hotel structure constant `FLOORS = 10`. -/
def FLOORS : Nat := 10

/-- Per-floor room counts `[10,10,10,10,10,10,10,10,10,7]` (floor 10 has 7 rooms). -/
def ROOMS_PER_FLOOR : List Nat := [10, 10, 10, 10, 10, 10, 10, 10, 10, 7]

/-- Booking cap `MAX_ROOMS_PER_BOOKING = 5`. -/
def MAX_ROOMS_PER_BOOKING : Nat := 5

/-- Room status enum (`RoomStatus` in the source). -/
inductive RoomStatus where
  | available
  | occupied
  | selected
deriving DecidableEq, Repr

/-- A room: number, floor, 1-based position on the floor, status. -/
structure Room where
  number : Nat
  floor : Nat
  position : Nat
  status : RoomStatus
deriving DecidableEq, Repr

/-- Booking result returned by the allocator. -/
structure BookingResult where
  rooms : List Room
  totalTravelTime : Nat
  success : Bool
  message : String
deriving DecidableEq, Repr

/-- `initializeRooms`: the fresh 97-room inventory, all Available.
Floors 1–9 number rooms `floor*100 + position`; floor 10 uses `1000 + position`. -/
def initializeRooms : List Room :=
  (List.range' 1 FLOORS).flatMap fun floor =>
    (List.range' 1 (ROOMS_PER_FLOOR.getD (floor - 1) 0)).map fun position =>
      { number := if floor = 10 then 1000 + position else floor * 100 + position
        floor := floor
        position := position
        status := RoomStatus.available }

/-- `calculateTravelTime`: 2 minutes per floor of vertical distance, plus the
position distance only when the rooms share a floor. -/
def calculateTravelTime (room1 room2 : Room) : Nat :=
  Nat.dist room1.floor room2.floor * 2 +
    (if room1.floor = room2.floor then Nat.dist room1.position room2.position else 0)

/-- The JS comparator `(a,b) => a.floor - b.floor`, then position: ascending
`(floor, position)` order. A JS `Array.sort` is stable, so sorting is modelled
by the stable `List.insertionSort`. -/
def roomLe (a b : Room) : Prop :=
  a.floor < b.floor ∨ (a.floor = b.floor ∧ a.position ≤ b.position)

instance : DecidableRel roomLe := fun a b =>
  decidable_of_iff (a.floor < b.floor ∨ (a.floor = b.floor ∧ a.position ≤ b.position)) Iff.rfl

/-- The position comparator of `getAvailableRoomsOnFloor`. -/
def posLe (a b : Room) : Prop :=
  a.position ≤ b.position

instance : DecidableRel posLe := fun a b =>
  decidable_of_iff (a.position ≤ b.position) Iff.rfl

/-- Sum of travel times between consecutive rooms of a list
(the `for` loop over `sortedRooms` in `calculateTotalTravelTime`). -/
def consecutiveSum : List Room → Nat
  | [] => 0
  | [_] => 0
  | a :: b :: rest => calculateTravelTime a b + consecutiveSum (b :: rest)

/-- `calculateTotalTravelTime`: 0 for at most one room, else the path metric over
the copy sorted ascending by `(floor, position)`. -/
def calculateTotalTravelTime (roomSet : List Room) : Nat :=
  if roomSet.length ≤ 1 then 0
  else consecutiveSum (List.insertionSort roomLe roomSet)

/-- `getAvailableRoomsOnFloor`: the Available rooms of a floor, sorted ascending
by position. -/
def getAvailableRoomsOnFloor (inv : List Room) (floor : Nat) : List Room :=
  List.insertionSort posLe
    (inv.filter fun room => decide (room.floor = floor ∧ room.status = RoomStatus.available))

/-- The `availableRooms` filter of `findOptimalRooms`. -/
def availableRoomsOf (inv : List Room) : List Room :=
  inv.filter fun room => decide (room.status = RoomStatus.available)

/-- Strategy 1 of `findOptimalRooms`: the `for` loop over floors 1..10, returning
at the first floor holding at least `numRooms` Available rooms. -/
def tryFloors (inv : List Room) (numRooms : Nat) : List Nat → Option BookingResult
  | [] => none
  | floor :: rest =>
    if numRooms ≤ (getAvailableRoomsOnFloor inv floor).length then
      some { rooms := (getAvailableRoomsOnFloor inv floor).take numRooms
             totalTravelTime :=
               calculateTotalTravelTime ((getAvailableRoomsOnFloor inv floor).take numRooms)
             success := true
             message := s!"Booked {numRooms} rooms on Floor {floor}" }
    else
      tryFloors inv numRooms rest

/-- `generateCombinations(rooms, size)`: for `size = 1` each room alone; for larger
sizes, for each index `i` with `i ≤ rooms.length - size` (no iterations when the
list is shorter than `size`, the JS loop bound being negative then), prepend
`rooms[i]` to every combination of `size - 1` drawn from `rooms.slice(i+1)`.
The source never calls it with `size = 0` (the JS recursion would not terminate
there); that unreachable case is given the empty result. -/
def generateCombinations : List Room → Nat → List (List Room)
  | _, 0 => []
  | rooms, 1 => rooms.map fun room => [room]
  | rooms, size + 2 =>
    if rooms.length < size + 2 then []
    else
      (List.range (rooms.length - (size + 2) + 1)).flatMap fun i =>
        match rooms.drop i with
        | [] => []
        | room :: rest =>
          (generateCombinations rest (size + 1)).map fun combo => room :: combo

/-- The `forEach` of strategy 2: scan the combinations keeping the first one whose
travel time is strictly below the running minimum (`none` models the initial
`Infinity`, below which every time falls). -/
def searchBest : List (List Room) → List Room × Option Nat → List Room × Option Nat
  | [], acc => acc
  | combination :: rest, (best, minT) =>
    let travelTime := calculateTotalTravelTime combination
    if minT.all fun m => decide (travelTime < m) then
      searchBest rest (combination, some travelTime)
    else
      searchBest rest (best, minT)

/-- The shared defensive size check ending strategies 2/3 of `findOptimalRooms`:
`p` is the pair `(bestCombination, minTravelTime)`. On every success path the
running minimum is a `some`, so `getD 0` never papers over the JS `Infinity`. -/
def finishSearch (numRooms : Nat) (p : List Room × Option Nat) : BookingResult :=
  if p.1.length = numRooms then
    { rooms := p.1, totalTravelTime := p.2.getD 0, success := true
      message := s!"Booked {numRooms} rooms across multiple floors" }
  else
    { rooms := [], totalTravelTime := 0, success := false
      message := "Unable to find optimal room combination" }

/-- Strategy 2/3 of `findOptimalRooms`: the exhaustive combination search (when
`numRooms ≤ 3` or at most 20 rooms are Available) or the greedy
`(floor, position)`-sorted fallback, followed by the shared defensive size
check. -/
def crossFloorSearch (availableRooms : List Room) (numRooms : Nat) : BookingResult :=
  finishSearch numRooms <|
    if numRooms ≤ 3 ∨ availableRooms.length ≤ 20 then
      searchBest (generateCombinations availableRooms numRooms) ([], none)
    else
      ((List.insertionSort roomLe availableRooms).take numRooms,
        some (calculateTotalTravelTime
          ((List.insertionSort roomLe availableRooms).take numRooms)))

/-- `findOptimalRooms`: cap check, availability check, same-floor search, then
the cross-floor search. -/
def findOptimalRooms (inv : List Room) (numRooms : Nat) : BookingResult :=
  if MAX_ROOMS_PER_BOOKING < numRooms then
    { rooms := [], totalTravelTime := 0, success := false
      message := s!"Maximum {MAX_ROOMS_PER_BOOKING} rooms per booking allowed" }
  else if (availableRoomsOf inv).length < numRooms then
    { rooms := [], totalTravelTime := 0, success := false
      message := s!"Only {(availableRoomsOf inv).length} rooms available" }
  else
    match tryFloors inv numRooms (List.range' 1 FLOORS) with
    | some result => result
    | none => crossFloorSearch (availableRoomsOf inv) numRooms

/-- The state update of `bookRooms`: on success, mark exactly the rooms whose
number occurs in the result Selected; otherwise leave the inventory alone. -/
def commitBooking (inv : List Room) (result : BookingResult) : List Room :=
  if result.success then
    inv.map fun room =>
      if result.rooms.any fun selectedRoom => selectedRoom.number == room.number then
        { room with status := RoomStatus.selected }
      else
        room
  else
    inv

/-- `generateRandomOccupancy`: every room's status is overwritten from a fresh
Bernoulli draw; `draws i` models `Math.random() < 0.3` at the i-th room. -/
def generateRandomOccupancy (draws : Nat → Bool) : List Room → Nat → List Room
  | [], _ => []
  | room :: rest, i =>
    { room with status := if draws i then RoomStatus.occupied else RoomStatus.available }
      :: generateRandomOccupancy draws rest (i + 1)

/-- `resetBookings`: replace the inventory by a fresh `initializeRooms()`. -/
def resetBookings (_inv : List Room) : List Room :=
  initializeRooms

/-! ### Helper lemmas: the running minimum of the exhaustive scan -/

lemma foldlMin_le_init {α : Type} (f : α → Nat) (l : List α) (m : Nat) :
    l.foldl (fun acc c => min acc (f c)) m ≤ m := by
  induction l generalizing m with
  | nil => exact le_rfl
  | cons c cs ih => exact le_trans (ih (min m (f c))) (min_le_left _ _)

lemma foldlMin_le_mem {α : Type} (f : α → Nat) (l : List α) (m : Nat) {x : α}
    (hx : x ∈ l) : l.foldl (fun acc c => min acc (f c)) m ≤ f x := by
  induction l generalizing m with
  | nil => cases hx
  | cons c cs ih =>
    rcases List.mem_cons.mp hx with rfl | hx'
    · exact le_trans (foldlMin_le_init f cs _) (min_le_right _ _)
    · exact ih _ hx'

lemma searchBest_cons_none (c : List Room) (cs : List (List Room)) (b : List Room) :
    searchBest (c :: cs) (b, none) =
      searchBest cs (c, some (calculateTotalTravelTime c)) := by
  simp [searchBest, Option.all]

lemma searchBest_cons (c : List Room) (cs : List (List Room)) (b : List Room) (m : Nat) :
    searchBest (c :: cs) (b, some m) =
      if calculateTotalTravelTime c < m then
        searchBest cs (c, some (calculateTotalTravelTime c))
      else
        searchBest cs (b, some m) := by
  by_cases h : calculateTotalTravelTime c < m <;>
    simp [searchBest, Option.all, h]

lemma searchBest_snd (cs : List (List Room)) (b : List Room) (m : Nat) :
    (searchBest cs (b, some m)).2 =
      some (cs.foldl (fun acc c => min acc (calculateTotalTravelTime c)) m) := by
  induction cs generalizing b m with
  | nil => rfl
  | cons c cs ih =>
    rw [searchBest_cons, List.foldl_cons]
    by_cases h : calculateTotalTravelTime c < m
    · rw [if_pos h, ih, min_eq_right h.le]
    · rw [if_neg h, ih, min_eq_left (le_of_not_lt h)]

lemma searchBest_fst (cs : List (List Room)) (b : List Room) (m : Nat) :
    (cs.foldl (fun acc c => min acc (calculateTotalTravelTime c)) m = m ∧
      (searchBest cs (b, some m)).1 = b) ∨
    (cs.foldl (fun acc c => min acc (calculateTotalTravelTime c)) m < m ∧
      cs.find? (fun c => decide (calculateTotalTravelTime c =
          cs.foldl (fun acc c => min acc (calculateTotalTravelTime c)) m)) =
        some (searchBest cs (b, some m)).1) := by
  induction cs generalizing b m with
  | nil => exact Or.inl ⟨rfl, rfl⟩
  | cons c cs ih =>
    rw [searchBest_cons, List.foldl_cons]
    by_cases h : calculateTotalTravelTime c < m
    · rw [if_pos h, min_eq_right h.le]
      rcases ih c (calculateTotalTravelTime c) with ⟨heq, hfst⟩ | ⟨hlt, hfind⟩
      · refine Or.inr ⟨by rw [heq]; exact h, ?_⟩
        rw [heq, hfst, List.find?_cons_of_pos _ (by simp)]
      · refine Or.inr ⟨lt_trans hlt h, ?_⟩
        rw [List.find?_cons_of_neg _ (by simp; omega), hfind]
    · rw [if_neg h, min_eq_left (le_of_not_lt h)]
      rcases ih b m with ⟨heq, hfst⟩ | ⟨hlt, hfind⟩
      · exact Or.inl ⟨heq, hfst⟩
      · refine Or.inr ⟨hlt, ?_⟩
        rw [List.find?_cons_of_neg _ (by simp; omega), hfind]

/-- On a nonempty combination list the scan returns the running minimum of all
travel times, attained by the first combination reaching it. -/
lemma searchBest_spec (c₀ : List Room) (cs : List (List Room)) :
    ∃ b T, searchBest (c₀ :: cs) ([], none) = (b, some T) ∧
      (c₀ :: cs).find? (fun c => decide (calculateTotalTravelTime c = T)) = some b ∧
      ∀ c ∈ c₀ :: cs, T ≤ calculateTotalTravelTime c := by
  rw [searchBest_cons_none]
  refine ⟨(searchBest cs (c₀, some (calculateTotalTravelTime c₀))).1,
    cs.foldl (fun acc c => min acc (calculateTotalTravelTime c)) (calculateTotalTravelTime c₀),
    ?_, ?_, ?_⟩
  · have h2 := searchBest_snd cs c₀ (calculateTotalTravelTime c₀)
    exact Prod.ext rfl h2
  · rcases searchBest_fst cs c₀ (calculateTotalTravelTime c₀) with ⟨heq, hfst⟩ | ⟨hlt, hfind⟩
    · rw [hfst, heq, List.find?_cons_of_pos _ (by simp)]
    · rw [List.find?_cons_of_neg _ (by simp; omega), hfind]
  · intro c hc
    rcases List.mem_cons.mp hc with rfl | hc'
    · exact foldlMin_le_init _ cs _
    · exact foldlMin_le_mem _ cs _ hc'

/-! ### Helper lemmas: the combination enumerator -/

lemma cons_sublist_decomp {a : Room} {c l : List Room} (h : (a :: c).Sublist l) :
    ∃ i, i < l.length ∧ l.drop i = a :: l.drop (i + 1) ∧ c.Sublist (l.drop (i + 1)) := by
  induction l with
  | nil => exact absurd h (by simp)
  | cons x l ih =>
    cases h with
    | cons _ h' =>
      obtain ⟨i, hi, hd, hc⟩ := ih h'
      exact ⟨i + 1, by simpa using hi, by simpa using hd, by simpa using hc⟩
    | cons₂ _ h' =>
      exact ⟨0, by simp, by simp, by simpa using h'⟩

/-- `generateCombinations l k` (for `k ≥ 1`) enumerates exactly the length-`k`
sublists of `l`: the size-`k` combinations of its rooms. -/
lemma mem_generateCombinations :
    ∀ (k : Nat), 1 ≤ k → ∀ (l c : List Room),
      (c ∈ generateCombinations l k ↔ c.Sublist l ∧ c.length = k) := by
  intro k
  induction k with
  | zero => omega
  | succ n ih =>
    intro _ l c
    cases n with
    | zero =>
      simp only [generateCombinations, List.mem_map]
      constructor
      · rintro ⟨r, hr, rfl⟩
        exact ⟨List.singleton_sublist.mpr hr, rfl⟩
      · rintro ⟨hsub, hlen⟩
        obtain ⟨r, rfl⟩ := List.length_eq_one.mp hlen
        exact ⟨r, List.singleton_sublist.mp hsub, rfl⟩
    | succ m =>
      rw [generateCombinations]
      by_cases hlen : l.length < m + 2
      · rw [if_pos hlen]
        simp only [List.not_mem_nil, false_iff, not_and]
        intro hsub hl
        exact absurd (hsub.length_le) (by omega)
      · rw [if_neg hlen]
        rw [List.mem_flatMap]
        constructor
        · rintro ⟨i, hi, hc⟩
          rcases hdrop : l.drop i with _ | ⟨room, rest⟩
          · rw [hdrop] at hc; cases hc
          · rw [hdrop] at hc
            rw [List.mem_map] at hc
            obtain ⟨combo, hcombo, rfl⟩ := hc
            obtain ⟨hsub, hclen⟩ := (ih (by omega) rest combo).mp hcombo
            have hsub2 : (room :: combo).Sublist (l.drop i) := by
              rw [hdrop]; exact hsub.cons₂ room
            exact ⟨hsub2.trans (List.drop_sublist i l), by simp [hclen]⟩
        · rintro ⟨hsub, hclen⟩
          rcases c with _ | ⟨a, c'⟩
          · simp at hclen
          · obtain ⟨i, hi, hdrop, hsubc⟩ := cons_sublist_decomp hsub
            have hc'len : c'.length = m + 1 := by simpa using hclen
            have hdroplen : (l.drop (i + 1)).length = l.length - (i + 1) :=
              List.length_drop _ _
            have hle : m + 1 ≤ l.length - (i + 1) := by
              have := hsubc.length_le
              omega
            refine ⟨i, ?_, ?_⟩
            · rw [List.mem_range]
              omega
            · rw [hdrop, List.mem_map]
              exact ⟨c', (ih (by omega) _ c').mpr ⟨hsubc, hc'len⟩, rfl⟩

lemma take_mem_generateCombinations (l : List Room) (k : Nat) (hk : 1 ≤ k)
    (hlen : k ≤ l.length) : l.take k ∈ generateCombinations l k :=
  (mem_generateCombinations k hk l _).mpr
    ⟨List.take_sublist k l, by rw [List.length_take]; omega⟩

/-! ### Helper lemmas: the same-floor scan -/

lemma tryFloors_eq_none (inv : List Room) (k : Nat) (fs : List Nat)
    (h : ∀ f ∈ fs, (getAvailableRoomsOnFloor inv f).length < k) :
    tryFloors inv k fs = none := by
  induction fs with
  | nil => rfl
  | cons f fs ih =>
    rw [tryFloors, if_neg (by have := h f (List.mem_cons_self f fs); omega)]
    exact ih fun f' hf' => h f' (List.mem_cons_of_mem _ hf')

lemma tryFloors_some_spec (inv : List Room) (k : Nat) (fs : List Nat) (r : BookingResult)
    (h : tryFloors inv k fs = some r) :
    r.success = true ∧ r.rooms.length = k ∧
      r.totalTravelTime = calculateTotalTravelTime r.rooms := by
  induction fs with
  | nil => cases h
  | cons f fs ih =>
    rw [tryFloors] at h
    split at h
    · rename_i hcond
      cases h
      refine ⟨rfl, ?_, rfl⟩
      rw [List.length_take]
      omega
    · exact ih h

lemma tryFloors_append_success (inv : List Room) (k : Nat) (fs₁ : List Nat) (f₀ : Nat)
    (fs₂ : List Nat)
    (h1 : ∀ f ∈ fs₁, (getAvailableRoomsOnFloor inv f).length < k)
    (h0 : k ≤ (getAvailableRoomsOnFloor inv f₀).length) :
    tryFloors inv k (fs₁ ++ f₀ :: fs₂) = some
      { rooms := (getAvailableRoomsOnFloor inv f₀).take k
        totalTravelTime :=
          calculateTotalTravelTime ((getAvailableRoomsOnFloor inv f₀).take k)
        success := true
        message := s!"Booked {k} rooms on Floor {f₀}" } := by
  induction fs₁ with
  | nil => rw [List.nil_append, tryFloors, if_pos h0]
  | cons f fs ih =>
    rw [List.cons_append, tryFloors,
      if_neg (by have := h1 f (List.mem_cons_self f fs); omega)]
    exact ih fun f' hf' => h1 f' (List.mem_cons_of_mem _ hf')

lemma mem_range'_iff (s n m : Nat) : m ∈ List.range' s n ↔ s ≤ m ∧ m < s + n := by
  rw [List.mem_range']
  constructor
  · rintro ⟨i, hi, rfl⟩
    omega
  · rintro ⟨h1, h2⟩
    exact ⟨m - s, by omega, by omega⟩

lemma range'_split_at :
    ∀ f₀ ∈ List.range' 1 10,
      List.range' 1 10 = List.range' 1 (f₀ - 1) ++ f₀ :: List.range' (f₀ + 1) (10 - f₀) := by
  decide

/-! ### Helper lemmas: the cross-floor phase and the allocator postcondition -/

lemma calculateTotalTravelTime_short {l : List Room} (h : l.length ≤ 1) :
    calculateTotalTravelTime l = 0 := by
  rw [calculateTotalTravelTime, if_pos h]

lemma finishSearch_spec (k : Nat) (p : List Room × Option Nat)
    (hsome : ∀ T, p.2 = some T → T = calculateTotalTravelTime p.1)
    (hnone : p.2 = none → calculateTotalTravelTime p.1 = 0) :
    ((finishSearch k p).success = true → (finishSearch k p).rooms.length = k ∧
      (finishSearch k p).totalTravelTime =
        calculateTotalTravelTime (finishSearch k p).rooms) ∧
    ((finishSearch k p).success = false → (finishSearch k p).rooms = [] ∧
      (finishSearch k p).totalTravelTime = 0) := by
  rw [finishSearch]
  split
  · rename_i hlen
    refine ⟨fun _ => ⟨hlen, ?_⟩, fun hf => by simp at hf⟩
    rcases hp : p.2 with _ | T
    · simpa [hp] using (hnone hp).symm
    · simpa [hp] using hsome T hp
  · exact ⟨fun ht => by simp at ht, fun _ => ⟨rfl, rfl⟩⟩

lemma crossFloorSearch_spec (avail : List Room) (k : Nat) :
    ((crossFloorSearch avail k).success = true →
      (crossFloorSearch avail k).rooms.length = k ∧
      (crossFloorSearch avail k).totalTravelTime =
        calculateTotalTravelTime (crossFloorSearch avail k).rooms) ∧
    ((crossFloorSearch avail k).success = false →
      (crossFloorSearch avail k).rooms = [] ∧
      (crossFloorSearch avail k).totalTravelTime = 0) := by
  rw [crossFloorSearch]
  split
  · rcases hcombos : generateCombinations avail k with _ | ⟨c₀, cs⟩
    · refine finishSearch_spec k _ ?_ ?_
      · intro T hT
        cases hT
      · intro _
        rfl
    · obtain ⟨b, T, hsb, hfind, hmin⟩ := searchBest_spec c₀ cs
      rw [hsb]
      refine finishSearch_spec k _ ?_ ?_
      · intro T' hT'
        have hbT : calculateTotalTravelTime b = T := by
          simpa using List.find?_some hfind
        cases hT'
        exact hbT.symm
      · intro h
        cases h
  · refine finishSearch_spec k _ ?_ ?_
    · intro T hT
      cases hT
      rfl
    · intro h
      cases h

/-- Shape of any allocator result: success carries exactly `numRooms` rooms with
`totalTravelTime` the aggregate travel time of those rooms; failure carries no
rooms and time 0. -/
lemma findOptimalRooms_shape (inv : List Room) (k : Nat) :
    ((findOptimalRooms inv k).success = true →
      (findOptimalRooms inv k).rooms.length = k ∧
      (findOptimalRooms inv k).totalTravelTime =
        calculateTotalTravelTime (findOptimalRooms inv k).rooms) ∧
    ((findOptimalRooms inv k).success = false →
      (findOptimalRooms inv k).rooms = [] ∧
      (findOptimalRooms inv k).totalTravelTime = 0) := by
  rw [findOptimalRooms]
  split
  · exact ⟨fun h => by simp at h, fun _ => ⟨rfl, rfl⟩⟩
  · split
    · exact ⟨fun h => by simp at h, fun _ => ⟨rfl, rfl⟩⟩
    · split
      · rename_i r htf
        obtain ⟨hs, hlen, htime⟩ := tryFloors_some_spec inv k _ r htf
        exact ⟨fun _ => ⟨hlen, htime⟩, fun hf => by rw [hs] at hf; cases hf⟩
      · exact crossFloorSearch_spec (availableRoomsOf inv) k

/-! ### Helper lemmas: the selected rooms come from the Available rooms -/

lemma subperm_map {α β : Type} (f : α → β) {l₁ l₂ : List α} (h : l₁.Subperm l₂) :
    (l₁.map f).Subperm (l₂.map f) := by
  obtain ⟨l, hperm, hsub⟩ := h
  exact ⟨l.map f, hperm.map f, hsub.map f⟩

lemma subperm_nodup {α : Type} {l₁ l₂ : List α} (h : l₁.Subperm l₂) (hnd : l₂.Nodup) :
    l₁.Nodup := by
  obtain ⟨l, hperm, hsub⟩ := h
  exact (hsub.nodup hnd).perm hperm

lemma getAvailableRoomsOnFloor_subperm (inv : List Room) (f : Nat) :
    (getAvailableRoomsOnFloor inv f).Subperm (availableRoomsOf inv) := by
  have hfil :
      (inv.filter fun room =>
          decide (room.floor = f ∧ room.status = RoomStatus.available)) =
        (availableRoomsOf inv).filter fun room => decide (room.floor = f) := by
    rw [availableRoomsOf, List.filter_filter]
    congr 1
    funext room
    rw [Bool.decide_and]
  have h1 : (getAvailableRoomsOnFloor inv f).Subperm
      ((availableRoomsOf inv).filter fun room => decide (room.floor = f)) := by
    rw [getAvailableRoomsOnFloor, hfil]
    exact (List.perm_insertionSort _ _).subperm
  exact h1.trans (List.filter_sublist _).subperm

lemma tryFloors_some_rooms (inv : List Room) (k : Nat) (fs : List Nat) (r : BookingResult)
    (h : tryFloors inv k fs = some r) :
    ∃ f ∈ fs, k ≤ (getAvailableRoomsOnFloor inv f).length ∧
      r.rooms = (getAvailableRoomsOnFloor inv f).take k := by
  induction fs with
  | nil => cases h
  | cons f fs ih =>
    rw [tryFloors] at h
    split at h
    · rename_i hcond
      cases h
      exact ⟨f, List.mem_cons_self f fs, hcond, rfl⟩
    · obtain ⟨f', hf', hc, hr⟩ := ih h
      exact ⟨f', List.mem_cons_of_mem _ hf', hc, hr⟩

lemma finishSearch_rooms (k : Nat) (p : List Room × Option Nat) :
    (finishSearch k p).rooms = p.1 ∨ (finishSearch k p).rooms = [] := by
  rw [finishSearch]
  split
  · exact Or.inl rfl
  · exact Or.inr rfl

lemma crossFloorSearch_rooms_subperm (avail : List Room) (k : Nat) :
    (crossFloorSearch avail k).rooms.Subperm avail := by
  rw [crossFloorSearch]
  split
  · rcases hcombos : generateCombinations avail k with _ | ⟨c₀, cs⟩
    · rcases finishSearch_rooms k (searchBest [] ([], none)) with h | h <;>
        rw [h] <;> exact List.nil_subperm
    · obtain ⟨b, T, hsb, hfind, hmin⟩ := searchBest_spec c₀ cs
      rw [hsb]
      rcases finishSearch_rooms k (b, some T) with h | h <;> rw [h]
      · have hb : b ∈ generateCombinations avail k := by
          rw [hcombos]
          exact List.mem_of_find?_eq_some hfind
        have hk : 1 ≤ k := by
          rcases k with _ | k
          · rw [generateCombinations] at hcombos
            simp at hcombos
          · omega
        exact ((mem_generateCombinations k hk avail b).mp hb).1.subperm
      · exact List.nil_subperm
  · rcases finishSearch_rooms k ((List.insertionSort roomLe avail).take k,
      some (calculateTotalTravelTime ((List.insertionSort roomLe avail).take k))) with h | h <;>
      rw [h]
    · exact (List.take_sublist _ _).subperm.trans (List.perm_insertionSort _ avail).subperm
    · exact List.nil_subperm

/-- Every room the allocator returns is drawn (without reuse) from the
Available rooms of the input inventory. -/
lemma findOptimalRooms_rooms_subperm (inv : List Room) (k : Nat) :
    (findOptimalRooms inv k).rooms.Subperm (availableRoomsOf inv) := by
  rw [findOptimalRooms]
  split
  · exact List.nil_subperm
  · split
    · exact List.nil_subperm
    · split
      · rename_i r htf
        obtain ⟨f, _, _, hr⟩ := tryFloors_some_rooms inv k _ r htf
        rw [hr]
        exact (List.take_sublist _ _).subperm.trans (getAvailableRoomsOnFloor_subperm inv f)
      · exact crossFloorSearch_rooms_subperm (availableRoomsOf inv) k

lemma findOptimalRooms_eq_floor (inv : List Room) (k : Nat) (r : BookingResult)
    (h5 : ¬ MAX_ROOMS_PER_BOOKING < k) (ha : ¬ (availableRoomsOf inv).length < k)
    (htf : tryFloors inv k (List.range' 1 FLOORS) = some r) :
    findOptimalRooms inv k = r := by
  rw [findOptimalRooms, if_neg h5, if_neg ha, htf]

lemma findOptimalRooms_eq_cross (inv : List Room) (k : Nat)
    (h5 : ¬ MAX_ROOMS_PER_BOOKING < k) (ha : ¬ (availableRoomsOf inv).length < k)
    (htf : tryFloors inv k (List.range' 1 FLOORS) = none) :
    findOptimalRooms inv k = crossFloorSearch (availableRoomsOf inv) k := by
  rw [findOptimalRooms, if_neg h5, if_neg ha, htf]

/-! ### Claim theorems -/

/-- C10: for every inventory, a request for 0 rooms (below the documented
minimum of 1) succeeds with an empty room list, travel time 0, and a message
reporting a booking of 0 rooms on Floor 1: the same-floor scan accepts floor 1
as having at least 0 Available rooms. -/
theorem allocate_zero_rooms (inv : List Room) :
    findOptimalRooms inv 0 =
      { rooms := [], totalTravelTime := 0, success := true
        message := "Booked 0 rooms on Floor 1" } := by
  have htf : tryFloors inv 0 (List.range' 1 FLOORS) = some
      { rooms := [], totalTravelTime := 0, success := true
        message := "Booked 0 rooms on Floor 1" } := by
    rw [show List.range' 1 FLOORS = 1 :: List.range' 2 9 from by decide, tryFloors,
      if_pos (Nat.zero_le _), List.take_zero]
    decide
  exact findOptimalRooms_eq_floor inv 0 _ (by omega) (by omega) htf

/-- C4: a request above `MAX_ROOMS_PER_BOOKING = 5` always fails with the
cap-reporting message, empty rooms and travel time 0, and the result does not
depend on the inventory at all. -/
theorem allocate_above_cap (inv inv' : List Room) (k : Nat)
    (h : MAX_ROOMS_PER_BOOKING < k) :
    findOptimalRooms inv k =
      { rooms := [], totalTravelTime := 0, success := false
        message := "Maximum 5 rooms per booking allowed" } ∧
    findOptimalRooms inv k = findOptimalRooms inv' k := by
  have h1 : ∀ inv'' : List Room, findOptimalRooms inv'' k =
      { rooms := [], totalTravelTime := 0, success := false
        message := "Maximum 5 rooms per booking allowed" } := by
    intro inv''
    rw [findOptimalRooms, if_pos h]
    decide
  exact ⟨h1 inv, (h1 inv).trans (h1 inv').symm⟩

/-- Witness for C4: six rooms on the empty inventory fail with the cap message. -/
theorem allocate_above_cap_witness :
    findOptimalRooms [] 6 =
      { rooms := [], totalTravelTime := 0, success := false
        message := "Maximum 5 rooms per booking allowed" } ∧
    findOptimalRooms [] 6 = findOptimalRooms [⟨101, 1, 1, RoomStatus.available⟩] 6 :=
  allocate_above_cap [] [⟨101, 1, 1, RoomStatus.available⟩] 6 (by decide)

/-- C5: a request within the cap but exceeding the number of Available rooms
fails with empty rooms, travel time 0, and a message reporting the count of
Available rooms. -/
theorem allocate_insufficient (inv : List Room) (k : Nat)
    (hk : k ≤ MAX_ROOMS_PER_BOOKING) (h : (availableRoomsOf inv).length < k) :
    findOptimalRooms inv k =
      { rooms := [], totalTravelTime := 0, success := false
        message := s!"Only {(availableRoomsOf inv).length} rooms available" } := by
  rw [findOptimalRooms, if_neg (by omega), if_pos h]

/-- Witness for C5: one room requested from an all-occupied inventory. -/
theorem allocate_insufficient_witness :
    findOptimalRooms [⟨101, 1, 1, RoomStatus.occupied⟩] 1 =
      { rooms := [], totalTravelTime := 0, success := false
        message := "Only 0 rooms available" } :=
  allocate_insufficient [⟨101, 1, 1, RoomStatus.occupied⟩] 1 (by decide) (by decide)

/-- C3: every successful allocation returns exactly `k` rooms whose
`totalTravelTime` is the aggregate travel time of the returned list; every
failure returns no rooms and travel time 0; a success holding at most one room
has travel time 0. -/
theorem allocate_result_shape (inv : List Room) (k : Nat) :
    ((findOptimalRooms inv k).success = true →
      (findOptimalRooms inv k).rooms.length = k ∧
      (findOptimalRooms inv k).totalTravelTime =
        calculateTotalTravelTime (findOptimalRooms inv k).rooms) ∧
    ((findOptimalRooms inv k).success = false →
      (findOptimalRooms inv k).rooms = [] ∧
      (findOptimalRooms inv k).totalTravelTime = 0) ∧
    ((findOptimalRooms inv k).success = true → (findOptimalRooms inv k).rooms.length ≤ 1 →
      (findOptimalRooms inv k).totalTravelTime = 0) := by
  obtain ⟨h1, h2⟩ := findOptimalRooms_shape inv k
  refine ⟨h1, h2, fun hs hlen => ?_⟩
  rw [(h1 hs).2]
  exact calculateTotalTravelTime_short hlen

/-- Witness for C3 at the empty inventory and a zero-size request. -/
theorem allocate_result_shape_witness :
    ((findOptimalRooms [] 0).success = true →
      (findOptimalRooms [] 0).rooms.length = 0 ∧
      (findOptimalRooms [] 0).totalTravelTime =
        calculateTotalTravelTime (findOptimalRooms [] 0).rooms) ∧
    ((findOptimalRooms [] 0).success = false →
      (findOptimalRooms [] 0).rooms = [] ∧
      (findOptimalRooms [] 0).totalTravelTime = 0) ∧
    ((findOptimalRooms [] 0).success = true → (findOptimalRooms [] 0).rooms.length ≤ 1 →
      (findOptimalRooms [] 0).totalTravelTime = 0) :=
  allocate_result_shape [] 0

lemma generateRandomOccupancy_status (draws : Nat → Bool) :
    ∀ (l : List Room) (i : Nat), ∀ room ∈ generateRandomOccupancy draws l i,
      room.status = RoomStatus.occupied ∨ room.status = RoomStatus.available := by
  intro l
  induction l with
  | nil => intro i room h; cases h
  | cons r rest ih =>
    intro i room h
    rcases List.mem_cons.mp h with rfl | h'
    · by_cases hd : draws i
      · left; simp [hd]
      · right; simp [hd]
    · exact ih (i + 1) room h'

/-- C8: after `resetBookings` all 97 rooms are Available; after
`generateRandomOccupancy` (for every outcome of the draws) every room is
Occupied or Available and none is Selected, whatever the prior statuses. -/
theorem reset_and_randomize_shape (inv : List Room) (draws : Nat → Bool) :
    ((resetBookings inv).length = 97 ∧
      ∀ room ∈ resetBookings inv, room.status = RoomStatus.available) ∧
    (∀ room ∈ generateRandomOccupancy draws inv 0,
      room.status = RoomStatus.occupied ∨ room.status = RoomStatus.available) ∧
    (∀ room ∈ generateRandomOccupancy draws inv 0,
      room.status ≠ RoomStatus.selected) := by
  have hreset : resetBookings inv = initializeRooms := rfl
  rw [hreset]
  refine ⟨⟨by decide, by decide⟩, generateRandomOccupancy_status draws inv 0, ?_⟩
  intro room hroom
  rcases generateRandomOccupancy_status draws inv 0 room hroom with h | h <;>
    rw [h] <;> simp

/-- Witness for C8 on a one-room Selected inventory with all-true draws. -/
theorem reset_and_randomize_shape_witness :
    ((resetBookings [⟨101, 1, 1, RoomStatus.selected⟩]).length = 97 ∧
      ∀ room ∈ resetBookings [⟨101, 1, 1, RoomStatus.selected⟩],
        room.status = RoomStatus.available) ∧
    (∀ room ∈ generateRandomOccupancy (fun _ => true) [⟨101, 1, 1, RoomStatus.selected⟩] 0,
      room.status = RoomStatus.occupied ∨ room.status = RoomStatus.available) ∧
    (∀ room ∈ generateRandomOccupancy (fun _ => true) [⟨101, 1, 1, RoomStatus.selected⟩] 0,
      room.status ≠ RoomStatus.selected) :=
  reset_and_randomize_shape [⟨101, 1, 1, RoomStatus.selected⟩] (fun _ => true)

/-- C7: committing a failed result leaves the inventory unchanged; committing a
successful one relates the old and new inventories pointwise — a room whose
number occurs among the result's rooms gets status Selected and keeps every
other field, any other room is untouched. -/
theorem commit_booking_frame (inv : List Room) (result : BookingResult) :
    (result.success = false → commitBooking inv result = inv) ∧
    (result.success = true →
      List.Forall₂ (fun room room' =>
          ((∃ s ∈ result.rooms, s.number = room.number) →
            room' = { room with status := RoomStatus.selected }) ∧
          ((∀ s ∈ result.rooms, s.number ≠ room.number) → room' = room))
        inv (commitBooking inv result)) := by
  constructor
  · intro h
    rw [commitBooking, if_neg (by simp [h])]
  · intro h
    rw [commitBooking, if_pos (by simp [h])]
    rw [List.forall₂_map_right_iff, List.forall₂_same]
    intro room _
    constructor
    · rintro ⟨s, hs, hnum⟩
      have hany : (result.rooms.any fun sr => sr.number == room.number) = true :=
        List.any_eq_true.mpr ⟨s, hs, by simpa using hnum⟩
      simp only [hany, if_true]
    · intro hall
      have hany : (result.rooms.any fun sr => sr.number == room.number) = false :=
        List.any_eq_false.mpr fun s hs => by simpa using hall s hs
      simp [hany]

/-- Witness for C7: a success result selecting room 101 out of a two-room
inventory. -/
theorem commit_booking_frame_witness :
    ((⟨[⟨101, 1, 1, RoomStatus.available⟩], 0, true, "ok"⟩ : BookingResult).success = false →
      commitBooking [⟨101, 1, 1, RoomStatus.available⟩, ⟨102, 1, 2, RoomStatus.occupied⟩]
        ⟨[⟨101, 1, 1, RoomStatus.available⟩], 0, true, "ok"⟩ =
        [⟨101, 1, 1, RoomStatus.available⟩, ⟨102, 1, 2, RoomStatus.occupied⟩]) ∧
    ((⟨[⟨101, 1, 1, RoomStatus.available⟩], 0, true, "ok"⟩ : BookingResult).success = true →
      List.Forall₂ (fun room room' =>
          ((∃ s ∈ (⟨[⟨101, 1, 1, RoomStatus.available⟩], 0, true, "ok"⟩ :
              BookingResult).rooms, s.number = room.number) →
            room' = { room with status := RoomStatus.selected }) ∧
          ((∀ s ∈ (⟨[⟨101, 1, 1, RoomStatus.available⟩], 0, true, "ok"⟩ :
              BookingResult).rooms, s.number ≠ room.number) → room' = room))
        [⟨101, 1, 1, RoomStatus.available⟩, ⟨102, 1, 2, RoomStatus.occupied⟩]
        (commitBooking [⟨101, 1, 1, RoomStatus.available⟩, ⟨102, 1, 2, RoomStatus.occupied⟩]
          ⟨[⟨101, 1, 1, RoomStatus.available⟩], 0, true, "ok"⟩)) :=
  commit_booking_frame
    [⟨101, 1, 1, RoomStatus.available⟩, ⟨102, 1, 2, RoomStatus.occupied⟩]
    ⟨[⟨101, 1, 1, RoomStatus.available⟩], 0, true, "ok"⟩

/-- C2: when some floor among 1..10 holds at least `k` Available rooms, the
allocator returns the first `k` position-sorted Available rooms of the
lowest-numbered such floor, and every returned room lies on that floor and was
Available — no cross-floor comparison takes place. -/
theorem same_floor_preference (inv : List Room) (k f₀ : Nat)
    (hk1 : 1 ≤ k) (hk5 : k ≤ MAX_ROOMS_PER_BOOKING)
    (havail : k ≤ (availableRoomsOf inv).length)
    (hf₀mem : f₀ ∈ List.range' 1 FLOORS)
    (hf₀ : k ≤ (getAvailableRoomsOnFloor inv f₀).length)
    (hmin : ∀ f ∈ List.range' 1 FLOORS, f < f₀ →
      (getAvailableRoomsOnFloor inv f).length < k) :
    findOptimalRooms inv k =
      { rooms := (getAvailableRoomsOnFloor inv f₀).take k
        totalTravelTime :=
          calculateTotalTravelTime ((getAvailableRoomsOnFloor inv f₀).take k)
        success := true
        message := s!"Booked {k} rooms on Floor {f₀}" } ∧
    ∀ room ∈ (findOptimalRooms inv k).rooms,
      room.floor = f₀ ∧ room.status = RoomStatus.available := by
  have hsplit := range'_split_at f₀ hf₀mem
  have htf : tryFloors inv k (List.range' 1 FLOORS) = some
      { rooms := (getAvailableRoomsOnFloor inv f₀).take k
        totalTravelTime :=
          calculateTotalTravelTime ((getAvailableRoomsOnFloor inv f₀).take k)
        success := true
        message := s!"Booked {k} rooms on Floor {f₀}" } := by
    rw [show List.range' 1 FLOORS = List.range' 1 10 from rfl, hsplit]
    refine tryFloors_append_success inv k _ f₀ _ ?_ hf₀
    intro f hf
    have hb := (mem_range'_iff 1 (f₀ - 1) f).mp hf
    have hmem10 : f ∈ List.range' 1 10 := (mem_range'_iff 1 10 f).mpr
      ⟨hb.1, by
        have := (mem_range'_iff 1 10 f₀).mp hf₀mem
        omega⟩
    exact hmin f hmem10 (by omega)
  have h1 := findOptimalRooms_eq_floor inv k _ (by omega) (by omega) htf
  refine ⟨h1, ?_⟩
  rw [h1]
  intro room hroom
  have h2 : room ∈ getAvailableRoomsOnFloor inv f₀ := List.mem_of_mem_take hroom
  rw [getAvailableRoomsOnFloor] at h2
  have h3 := (List.perm_insertionSort _ _).mem_iff.mp h2
  have h4 := List.mem_filter.mp h3
  simpa using h4.2

/-- Witness for C2: two rooms from the fresh inventory come from floor 1,
positions 1 and 2. -/
theorem same_floor_preference_witness :
    (findOptimalRooms initializeRooms 2 =
      { rooms := (getAvailableRoomsOnFloor initializeRooms 1).take 2
        totalTravelTime :=
          calculateTotalTravelTime ((getAvailableRoomsOnFloor initializeRooms 1).take 2)
        success := true
        message := "Booked 2 rooms on Floor 1" } ∧
    ∀ room ∈ (findOptimalRooms initializeRooms 2).rooms,
      room.floor = 1 ∧ room.status = RoomStatus.available) :=
  same_floor_preference initializeRooms 2 1 (by decide) (by decide) (by decide)
    (by decide) (by decide) (by decide)

/-- Ascending `(floor, position)` order is total. -/
instance : IsTotal Room roomLe :=
  ⟨fun a b => by simp only [roomLe]; omega⟩

/-- Ascending `(floor, position)` order is transitive. -/
instance : IsTrans Room roomLe :=
  ⟨fun a b c => by simp only [roomLe]; omega⟩

/-- C6: with 4 or 5 rooms requested, more than 20 Available rooms and no floor
holding the requested count, the allocator succeeds with the first
`requestedCount` Available rooms in ascending `(floor, position)` order. -/
theorem greedy_fallback (inv : List Room) (k : Nat)
    (hk4 : 4 ≤ k) (hk5 : k ≤ MAX_ROOMS_PER_BOOKING)
    (h20 : 20 < (availableRoomsOf inv).length)
    (hfloor : ∀ f ∈ List.range' 1 FLOORS, (getAvailableRoomsOnFloor inv f).length < k) :
    findOptimalRooms inv k =
      { rooms := (List.insertionSort roomLe (availableRoomsOf inv)).take k
        totalTravelTime := calculateTotalTravelTime
          ((List.insertionSort roomLe (availableRoomsOf inv)).take k)
        success := true
        message := s!"Booked {k} rooms across multiple floors" } ∧
    (findOptimalRooms inv k).rooms.Sorted roomLe := by
  have hM : MAX_ROOMS_PER_BOOKING = 5 := rfl
  have htf := tryFloors_eq_none inv k _ hfloor
  have hlen : ((List.insertionSort roomLe (availableRoomsOf inv)).take k).length = k := by
    rw [List.length_take, (List.perm_insertionSort roomLe _).length_eq]
    omega
  have h1 : findOptimalRooms inv k =
      { rooms := (List.insertionSort roomLe (availableRoomsOf inv)).take k
        totalTravelTime := calculateTotalTravelTime
          ((List.insertionSort roomLe (availableRoomsOf inv)).take k)
        success := true
        message := s!"Booked {k} rooms across multiple floors" } := by
    rw [findOptimalRooms_eq_cross inv k (by omega) (by omega) htf, crossFloorSearch,
      if_neg (by omega), finishSearch, if_pos hlen]
    rfl
  refine ⟨h1, ?_⟩
  rw [h1]
  exact List.Pairwise.sublist (List.take_sublist _ _)
    (List.sorted_insertionSort roomLe (availableRoomsOf inv))

/-- 24 Available rooms, three per floor on floors 1–8: more than 20 Available
and no floor holds four. -/
def greedyInv : List Room :=
  (List.range' 1 8).flatMap fun f =>
    (List.range' 1 3).map fun p => ⟨f * 100 + p, f, p, RoomStatus.available⟩

/-- Witness for C6 on `greedyInv` with four rooms requested. -/
theorem greedy_fallback_witness :
    (findOptimalRooms greedyInv 4 =
      { rooms := (List.insertionSort roomLe (availableRoomsOf greedyInv)).take 4
        totalTravelTime := calculateTotalTravelTime
          ((List.insertionSort roomLe (availableRoomsOf greedyInv)).take 4)
        success := true
        message := "Booked 4 rooms across multiple floors" } ∧
    (findOptimalRooms greedyInv 4).rooms.Sorted roomLe) :=
  greedy_fallback greedyInv 4 (by decide) (by decide) (by decide) (by decide)

/-- C9: whatever the request, a successful allocation on an inventory with
pairwise-distinct room numbers returns pairwise-distinct rooms (no number
twice), all of them Available in the input snapshot. -/
theorem allocation_rooms_distinct_available (inv : List Room) (k : Nat)
    (hnd : (inv.map Room.number).Nodup)
    (hs : (findOptimalRooms inv k).success = true) :
    ((findOptimalRooms inv k).rooms.map Room.number).Nodup ∧
    ∀ room ∈ (findOptimalRooms inv k).rooms, room.status = RoomStatus.available := by
  have hsuc := hs
  have hsp := findOptimalRooms_rooms_subperm inv k
  constructor
  · have hsp2 : (findOptimalRooms inv k).rooms.Subperm inv :=
      hsp.trans (List.filter_sublist inv).subperm
    exact subperm_nodup (subperm_map Room.number hsp2) hnd
  · intro room hroom
    have hmem : room ∈ availableRoomsOf inv := hsp.subset hroom
    have hfil := List.mem_filter.mp hmem
    simpa using hfil.2

/-- A four-room demonstration inventory: three Available rooms on three
different floors, no floor with two Available rooms. -/
def demoInv : List Room :=
  [⟨101, 1, 1, RoomStatus.available⟩, ⟨102, 1, 2, RoomStatus.occupied⟩,
   ⟨201, 2, 1, RoomStatus.available⟩, ⟨305, 3, 5, RoomStatus.available⟩]

/-- Witness for C9 on `demoInv` with two rooms requested. -/
theorem allocation_rooms_distinct_available_witness :
    ((findOptimalRooms demoInv 2).rooms.map Room.number).Nodup ∧
    ∀ room ∈ (findOptimalRooms demoInv 2).rooms, room.status = RoomStatus.available :=
  allocation_rooms_distinct_available demoInv 2 (by decide) (by decide)

/-- C1: under the exhaustive guard (request of 1–3 rooms, or at most 20
Available), with enough Available rooms but no floor holding the request, the
allocator succeeds; its `totalTravelTime` is the minimum aggregate travel time
over all size-`k` combinations of the Available rooms (the returned rooms being
such a combination attaining it), and the returned combination is the first one
attaining that minimum in the enumeration order over the unsorted Available
list. -/
theorem exhaustive_optimality (inv : List Room) (k : Nat)
    (hk1 : 1 ≤ k) (hk5 : k ≤ MAX_ROOMS_PER_BOOKING)
    (havail : k ≤ (availableRoomsOf inv).length)
    (hfloor : ∀ f ∈ List.range' 1 FLOORS, (getAvailableRoomsOnFloor inv f).length < k)
    (hguard : k ≤ 3 ∨ (availableRoomsOf inv).length ≤ 20) :
    (findOptimalRooms inv k).success = true ∧
    (∀ c, c.Sublist (availableRoomsOf inv) → c.length = k →
      (findOptimalRooms inv k).totalTravelTime ≤ calculateTotalTravelTime c) ∧
    ((findOptimalRooms inv k).rooms.Sublist (availableRoomsOf inv) ∧
      (findOptimalRooms inv k).rooms.length = k ∧
      calculateTotalTravelTime (findOptimalRooms inv k).rooms =
        (findOptimalRooms inv k).totalTravelTime) ∧
    (generateCombinations (availableRoomsOf inv) k).find?
        (fun c => decide (calculateTotalTravelTime c =
          (findOptimalRooms inv k).totalTravelTime)) =
      some (findOptimalRooms inv k).rooms := by
  have htf := tryFloors_eq_none inv k _ hfloor
  have hne : generateCombinations (availableRoomsOf inv) k ≠ [] := by
    intro h
    have hmem := take_mem_generateCombinations (availableRoomsOf inv) k hk1 havail
    rw [h] at hmem
    cases hmem
  obtain ⟨c₀, cs, hcombos⟩ := List.exists_cons_of_ne_nil hne
  obtain ⟨b, T, hsb, hfind, hmin⟩ := searchBest_spec c₀ cs
  have hfind' : (generateCombinations (availableRoomsOf inv) k).find?
      (fun c => decide (calculateTotalTravelTime c = T)) = some b := by
    rw [hcombos]
    exact hfind
  have hbmem : b ∈ generateCombinations (availableRoomsOf inv) k :=
    List.mem_of_find?_eq_some hfind'
  obtain ⟨hbsub, hblen⟩ := (mem_generateCombinations k hk1 _ b).mp hbmem
  have hbT : calculateTotalTravelTime b = T := by
    simpa using List.find?_some hfind'
  have h1 : findOptimalRooms inv k =
      { rooms := b, totalTravelTime := T, success := true
        message := s!"Booked {k} rooms across multiple floors" } := by
    rw [findOptimalRooms_eq_cross inv k (by omega) (by omega) htf, crossFloorSearch,
      if_pos hguard, hcombos, hsb, finishSearch, if_pos hblen]
    rfl
  rw [h1]
  refine ⟨rfl, ?_, ⟨hbsub, hblen, hbT⟩, hfind'⟩
  intro c hcs hcl
  have hcmem : c ∈ generateCombinations (availableRoomsOf inv) k :=
    (mem_generateCombinations k hk1 _ c).mpr ⟨hcs, hcl⟩
  rw [hcombos] at hcmem
  exact hmin c hcmem

/-- Witness for C1 on `demoInv` with two rooms requested. -/
theorem exhaustive_optimality_witness :
    (findOptimalRooms demoInv 2).success = true ∧
    (∀ c, c.Sublist (availableRoomsOf demoInv) → c.length = 2 →
      (findOptimalRooms demoInv 2).totalTravelTime ≤ calculateTotalTravelTime c) ∧
    ((findOptimalRooms demoInv 2).rooms.Sublist (availableRoomsOf demoInv) ∧
      (findOptimalRooms demoInv 2).rooms.length = 2 ∧
      calculateTotalTravelTime (findOptimalRooms demoInv 2).rooms =
        (findOptimalRooms demoInv 2).totalTravelTime) ∧
    (generateCombinations (availableRoomsOf demoInv) 2).find?
        (fun c => decide (calculateTotalTravelTime c =
          (findOptimalRooms demoInv 2).totalTravelTime)) =
      some (findOptimalRooms demoInv 2).rooms :=
  exhaustive_optimality demoInv 2 (by decide) (by decide) (by decide) (by decide)
    (by decide)

end Hotel
